import Mathlib

/-!
# Verification of the disco-ball procedural engine

Shallow embedding, over real arithmetic, of the procedural
geometry/animation core of the disco-ball repository:

* `src/DiscoBall.js` — sphere construction, Fibonacci-spiral aperture
  generation, and the smoothed rotation state machine;
* `LightBeamSystem.js` — per-beam color animation and per-frame
  synchronization of beams with the rotating parent mesh.

JavaScript floating-point numbers are modelled as real numbers `ℝ`
(the claims state their numeric properties up to floating-point
tolerance; over `ℝ` they are exact).  Helper functions of the three.js
library that the code calls (`Vector3.applyQuaternion`,
`Quaternion.setFromUnitVectors`, `Quaternion.normalize`,
`MathUtils.lerp`, `Color.lerp`) are embedded from the three.js sources,
since their bodies are part of the program's behaviour.
-/

namespace Disco

noncomputable section

/-- `THREE.Vector3` with real components. -/
@[ext] structure Vec3 where
  x : ℝ
  y : ℝ
  z : ℝ

namespace Vec3

/-- `Vector3.multiplyScalar`. -/
def smul (s : ℝ) (v : Vec3) : Vec3 := ⟨s * v.x, s * v.y, s * v.z⟩

/-- `Vector3.add`. -/
def add (v w : Vec3) : Vec3 := ⟨v.x + w.x, v.y + w.y, v.z + w.z⟩

/-- `Vector3.length`: the Euclidean norm. -/
def norm (v : Vec3) : ℝ := Real.sqrt (v.x ^ 2 + v.y ^ 2 + v.z ^ 2)

end Vec3

/-- The golden ratio `(1 + √5) / 2` as computed in `generateHoles`. -/
def goldenRatio : ℝ := (1 + Real.sqrt 5) / 2

/-- One aperture record as pushed by `generateHoles` into `this.holes`
(`src/DiscoBall.js` lines 211–224): id, spherical angles, unit
direction, world position (direction scaled to the radius), normal. -/
structure Hole where
  id : ℕ
  theta : ℝ
  phi : ℝ
  direction : Vec3
  position : Vec3
  normal : Vec3

/-- The aperture built at loop index `i` of `generateHoles`. -/
def mkHole (numHoles : ℕ) (radius : ℝ) (i : ℕ) : Hole :=
  let theta : ℝ := 2 * Real.pi * (i : ℝ) / goldenRatio
  let phi : ℝ := Real.arccos (1 - 2 * ((i : ℝ) + 0.5) / (numHoles : ℝ))
  let x : ℝ := Real.sin phi * Real.cos theta
  let y : ℝ := Real.sin phi * Real.sin theta
  let z : ℝ := Real.cos phi
  { id := i
    theta := theta
    phi := phi
    direction := ⟨x, y, z⟩
    position := Vec3.smul radius ⟨x, y, z⟩
    normal := ⟨x, y, z⟩ }

/-- `DiscoBall.generateHoles` (`src/DiscoBall.js` lines 189–228):
Fibonacci-spiral distribution of `numHoles` apertures on the sphere of
radius `radius`.  For loop index `i`: `theta = 2π·i / goldenRatio`,
`phi = acos(1 − 2(i+0.5)/numHoles)`, the direction is the
spherical-to-Cartesian unit vector `(sin φ cos θ, sin φ sin θ, cos φ)`,
and the position is the direction scaled by the radius. -/
def generateHoles (numHoles : ℕ) (radius : ℝ) : List Hole :=
  (List.range numHoles).map (mkHole numHoles radius)

/-- Resolution of `config.holes` in the `DiscoBall` constructor
(`src/DiscoBall.js` lines 10–19): the defaults object writes
`config.holes || 12`, but the trailing `...config` spread overrides the
default with the caller's raw value whenever the key is present, so the
effective count is the supplied value (including `0`) and `12` only when
the key is absent. -/
def mergedConfigHoles (configHoles : Option ℕ) : ℕ :=
  match configHoles with
  | some v => v
  | none => 12

/-- Aperture list of a freshly constructed `DiscoBall`: `init` calls
`generateHoles`, which rebuilds `this.holes` from `this.config.holes`. -/
def constructedHoles (configHoles : Option ℕ) (radius : ℝ) : List Hole :=
  generateHoles (mergedConfigHoles configHoles) radius

theorem generateHoles_length (N : ℕ) (r : ℝ) : (generateHoles N r).length = N := by
  unfold generateHoles
  rw [List.length_map, List.length_range]

theorem generateHoles_get (N : ℕ) (r : ℝ) (i : ℕ) (hi : i < N) :
    (generateHoles N r).get ⟨i, by simpa [generateHoles_length] using hi⟩ =
      mkHole N r i := by
  unfold generateHoles
  simp

/-- C1: `generateHoles N r` with `N ≥ 1`, `r > 0` produces exactly `N`
apertures; for each index `i`, `theta_i = 2π·i/φ` with `φ` the golden
ratio, `cos(polar_i) = 1 − 2(i+0.5)/N`, the direction is a unit vector,
and the position is the direction scaled by `r` (hence of norm `r`).
Determinism and index-stability hold because `generateHoles` is a pure
function of `(N, r)`. -/
theorem generateHoles_spec (N : ℕ) (r : ℝ) (hN : 1 ≤ N) (hr : 0 < r) :
    (generateHoles N r).length = N ∧
    ∀ i, (hi : i < N) →
      letI h := (generateHoles N r).get ⟨i, by simpa [generateHoles_length] using hi⟩
      h.theta = 2 * Real.pi * (i : ℝ) / goldenRatio ∧
      Real.cos h.phi = 1 - 2 * ((i : ℝ) + 0.5) / (N : ℝ) ∧
      Vec3.norm h.direction = 1 ∧
      h.position = Vec3.smul r h.direction ∧
      Vec3.norm h.position = r := by
  refine ⟨generateHoles_length N r, ?_⟩
  intro i hi
  have hNpos : (0 : ℝ) < (N : ℝ) := by exact_mod_cast Nat.lt_of_lt_of_le Nat.zero_lt_one hN
  have hiN : (i : ℝ) + 1 ≤ (N : ℝ) := by exact_mod_cast hi
  have harg_le : 1 - 2 * ((i : ℝ) + 0.5) / (N : ℝ) ≤ 1 := by
    have h0 : 0 ≤ 2 * ((i : ℝ) + 0.5) / (N : ℝ) := by positivity
    linarith
  have harg_ge : -1 ≤ 1 - 2 * ((i : ℝ) + 0.5) / (N : ℝ) := by
    have h2 : 2 * ((i : ℝ) + 0.5) / (N : ℝ) ≤ 2 := by
      rw [div_le_iff₀ hNpos]; linarith
    linarith
  rw [generateHoles_get N r i hi]
  unfold mkHole
  set theta : ℝ := 2 * Real.pi * (i : ℝ) / goldenRatio with htheta
  set phi : ℝ := Real.arccos (1 - 2 * ((i : ℝ) + 0.5) / (N : ℝ)) with hphi
  have hdirsq : (Real.sin phi * Real.cos theta) ^ 2 + (Real.sin phi * Real.sin theta) ^ 2 +
      (Real.cos phi) ^ 2 = 1 := by
    linear_combination (Real.sin phi) ^ 2 * Real.sin_sq_add_cos_sq theta +
      Real.sin_sq_add_cos_sq phi
  have hdirnorm : Vec3.norm ⟨Real.sin phi * Real.cos theta, Real.sin phi * Real.sin theta,
      Real.cos phi⟩ = 1 := by
    simp only [Vec3.norm]
    rw [hdirsq, Real.sqrt_one]
  refine ⟨rfl, ?_, hdirnorm, rfl, ?_⟩
  · exact Real.cos_arccos harg_ge harg_le
  · simp only [Vec3.norm, Vec3.smul]
    have hsq : (r * (Real.sin phi * Real.cos theta)) ^ 2 +
        (r * (Real.sin phi * Real.sin theta)) ^ 2 + (r * Real.cos phi) ^ 2 =
        r ^ 2 * ((Real.sin phi * Real.cos theta) ^ 2 + (Real.sin phi * Real.sin theta) ^ 2 +
          (Real.cos phi) ^ 2) := by ring
    rw [hsq, hdirsq, mul_one, Real.sqrt_sq hr.le]

/-- Witness for C1 at the spec's own scenario `(N, r) = (12, 2)`. -/
theorem generateHoles_spec_witness :
    (1 ≤ 12 ∧ (0 : ℝ) < 2) ∧
    ((generateHoles 12 2).length = 12 ∧
     ∀ i, (hi : i < 12) →
      letI h := (generateHoles 12 2).get ⟨i, by simpa [generateHoles_length] using hi⟩
      h.theta = 2 * Real.pi * (i : ℝ) / goldenRatio ∧
      Real.cos h.phi = 1 - 2 * ((i : ℝ) + 0.5) / (12 : ℝ) ∧
      Vec3.norm h.direction = 1 ∧
      h.position = Vec3.smul 2 h.direction ∧
      Vec3.norm h.position = 2) :=
  ⟨⟨by norm_num, by norm_num⟩, by
    have h := generateHoles_spec 12 2 (by norm_num) (by norm_num)
    simpa using h⟩

/-- C3: constructing the sphere component with aperture count `0` (the
caller passes `holes: 0`; the `...config` spread keeps it `0` despite
the `|| 12` default) yields an empty aperture list; `generateHoles` is a
total function, so no error is raised. -/
theorem constructor_zero_holes (r : ℝ) : constructedHoles (some 0) r = [] := by
  simp [constructedHoles, mergedConfigHoles, generateHoles]

/-! ## Rotation state machine (`src/DiscoBall.js` lines 27–40, 288–393) -/

/-- `THREE.MathUtils.lerp(x, y, t) = x + (y − x) * t`. -/
def lerp (x y t : ℝ) : ℝ := x + (y - x) * t

/-- `this.rotationConfig` (`src/DiscoBall.js` lines 34–40). -/
structure RotationConfig where
  speedTransitionRate : ℝ
  minSpeed : ℝ
  maxSpeed : ℝ
  xAxisFactor : ℝ
  zAxisFactor : ℝ

/-- The constructor's rotation configuration values. -/
def initialRotationConfig : RotationConfig :=
  { speedTransitionRate := 0.05
    minSpeed := 0.1
    maxSpeed := 5.0
    xAxisFactor := 0.1
    zAxisFactor := 0.05 }

/-- `this.currentRotation`, the Euler angles applied to the mesh. -/
@[ext] structure Rotation3 where
  x : ℝ
  y : ℝ
  z : ℝ

/-- The rotation-relevant mutable state of a `DiscoBall` instance
(`src/DiscoBall.js` lines 27–40).  `mesh.rotation` is set from
`currentRotation` at the end of every `updateRotation` call, so
`currentRotation` is the orientation applied to the parent. -/
structure BallState where
  rotationSpeed : ℝ
  targetRotationSpeed : ℝ
  rotationDirection : ℝ
  currentRotation : Rotation3
  rotationConfig : RotationConfig

/-- The constructor's initial rotation state. -/
def initialBallState : BallState :=
  { rotationSpeed := 1.0
    targetRotationSpeed := 1.0
    rotationDirection := 1
    currentRotation := ⟨0, 0, 0⟩
    rotationConfig := initialRotationConfig }

/-- `Math.max(minSpeed, Math.min(maxSpeed, speed))`, the clamp used by
both speed setters. -/
def clampSpeed (cfg : RotationConfig) (speed : ℝ) : ℝ :=
  max cfg.minSpeed (min cfg.maxSpeed speed)

/-- `DiscoBall.updateRotationSpeed` (`src/DiscoBall.js` lines 317–329):
while `|rotationSpeed − targetRotationSpeed| > 0.01`, lerp the current
speed toward the target by `min(speedTransitionRate · deltaTime·0.001, 1)`;
otherwise snap to the target. -/
def updateRotationSpeed (st : BallState) (deltaTime : ℝ) : BallState :=
  if |st.rotationSpeed - st.targetRotationSpeed| > 0.01 then
    let transitionRate := st.rotationConfig.speedTransitionRate * (deltaTime * 0.001)
    { st with
        rotationSpeed := lerp st.rotationSpeed st.targetRotationSpeed (min transitionRate 1.0) }
  else
    { st with rotationSpeed := st.targetRotationSpeed }

/-- `DiscoBall.updateRotation` (`src/DiscoBall.js` lines 288–312): smooth
the speed, compute `rotationDelta = rotationSpeed·rotationDirection·
deltaTime·0.001`, accumulate yaw (`y += delta`), couple pitch
(`x += delta·xAxisFactor`), and accumulate the oscillatory roll term
(`z += sin(y·2)·zAxisFactor·delta`, with `y` already updated); the
resulting angles are applied to the mesh. -/
def updateRotation (st : BallState) (deltaTime : ℝ) : BallState :=
  let st1 := updateRotationSpeed st deltaTime
  let rotationDelta := st1.rotationSpeed * st1.rotationDirection * deltaTime * 0.001
  let newY := st1.currentRotation.y + rotationDelta
  let newX := st1.currentRotation.x + rotationDelta * st1.rotationConfig.xAxisFactor
  let newZ := st1.currentRotation.z +
    Real.sin (newY * 2) * st1.rotationConfig.zAxisFactor * rotationDelta
  { st1 with currentRotation := ⟨newX, newY, newZ⟩ }

/-- `DiscoBall.setRotationSpeed` (`src/DiscoBall.js` lines 334–339). -/
def setRotationSpeed (st : BallState) (speed : ℝ) : BallState :=
  { st with targetRotationSpeed := clampSpeed st.rotationConfig speed }

/-- `DiscoBall.setRotationSpeedImmediate` (`src/DiscoBall.js` lines 344–351). -/
def setRotationSpeedImmediate (st : BallState) (speed : ℝ) : BallState :=
  { st with rotationSpeed := clampSpeed st.rotationConfig speed,
            targetRotationSpeed := clampSpeed st.rotationConfig speed }

/-- `DiscoBall.setRotationDirection` (`src/DiscoBall.js` lines 356–358). -/
def setRotationDirection (st : BallState) (direction : ℝ) : BallState :=
  { st with rotationDirection := if direction > 0 then 1 else -1 }

/-- `DiscoBall.stopRotation` (`src/DiscoBall.js` lines 363–365):
`setRotationSpeed(0)`. -/
def stopRotation (st : BallState) : BallState :=
  setRotationSpeed st 0

/-- `DiscoBall.stopRotationImmediate` (`src/DiscoBall.js` lines 370–372). -/
def stopRotationImmediate (st : BallState) : BallState :=
  setRotationSpeedImmediate st 0

/-- A partial configuration object passed to `setRotationConfig`;
absent keys leave the existing value in place. -/
structure RotationConfigPatch where
  speedTransitionRate : Option ℝ := none
  minSpeed : Option ℝ := none
  maxSpeed : Option ℝ := none
  xAxisFactor : Option ℝ := none
  zAxisFactor : Option ℝ := none

/-- The `{ ...this.rotationConfig, ...config }` object merge. -/
def mergeConfig (cfg : RotationConfig) (p : RotationConfigPatch) : RotationConfig :=
  { speedTransitionRate := p.speedTransitionRate.getD cfg.speedTransitionRate
    minSpeed := p.minSpeed.getD cfg.minSpeed
    maxSpeed := p.maxSpeed.getD cfg.maxSpeed
    xAxisFactor := p.xAxisFactor.getD cfg.xAxisFactor
    zAxisFactor := p.zAxisFactor.getD cfg.zAxisFactor }

/-- `DiscoBall.setRotationConfig` (`src/DiscoBall.js` lines 377–379). -/
def setRotationConfig (st : BallState) (p : RotationConfigPatch) : BallState :=
  { st with rotationConfig := mergeConfig st.rotationConfig p }

/-- The public operations of the rotation controller. -/
inductive RotOp where
  | setSpeed (s : ℝ)
  | setSpeedImmediate (s : ℝ)
  | setDirection (d : ℝ)
  | stop
  | stopImmediate
  | update (deltaTime : ℝ)
  | setConfig (p : RotationConfigPatch)

/-- Dispatch one public operation on the rotation state. -/
def applyRotOp (st : BallState) : RotOp → BallState
  | .setSpeed s => setRotationSpeed st s
  | .setSpeedImmediate s => setRotationSpeedImmediate st s
  | .setDirection d => setRotationDirection st d
  | .stop => stopRotation st
  | .stopImmediate => stopRotationImmediate st
  | .update dt => updateRotation st dt
  | .setConfig p => setRotationConfig st p

/-- Run a sequence of public operations from a starting state. -/
def runRotOps (st : BallState) (ops : List RotOp) : BallState :=
  ops.foldl applyRotOp st

/-- The C6 invariant on the current speed. -/
def speedInvariant (st : BallState) : Prop :=
  st.rotationConfig.minSpeed ≤ st.rotationSpeed ∧
  st.rotationSpeed ≤ st.rotationConfig.maxSpeed

theorem lerp_left_bound {x y t : ℝ} (h0 : 0 ≤ t) (h1 : t ≤ 1) (hxy : x ≤ y) :
    x ≤ lerp x y t ∧ lerp x y t ≤ y := by
  unfold lerp
  constructor <;> nlinarith

theorem lerp_right_bound {x y t : ℝ} (h0 : 0 ≤ t) (h1 : t ≤ 1) (hxy : y ≤ x) :
    y ≤ lerp x y t ∧ lerp x y t ≤ x := by
  unfold lerp
  constructor <;> nlinarith

theorem updateRotationSpeed_target (st : BallState) (dt : ℝ) :
    (updateRotationSpeed st dt).targetRotationSpeed = st.targetRotationSpeed := by
  unfold updateRotationSpeed
  split <;> rfl

theorem updateRotationSpeed_config (st : BallState) (dt : ℝ) :
    (updateRotationSpeed st dt).rotationConfig = st.rotationConfig := by
  unfold updateRotationSpeed
  split <;> rfl

theorem updateRotationSpeed_direction (st : BallState) (dt : ℝ) :
    (updateRotationSpeed st dt).rotationDirection = st.rotationDirection := by
  unfold updateRotationSpeed
  split <;> rfl

theorem updateRotationSpeed_currentRotation (st : BallState) (dt : ℝ) :
    (updateRotationSpeed st dt).currentRotation = st.currentRotation := by
  unfold updateRotationSpeed
  split <;> rfl

theorem updateRotation_rotationSpeed (st : BallState) (dt : ℝ) :
    (updateRotation st dt).rotationSpeed = (updateRotationSpeed st dt).rotationSpeed := rfl

theorem updateRotation_target (st : BallState) (dt : ℝ) :
    (updateRotation st dt).targetRotationSpeed = st.targetRotationSpeed :=
  updateRotationSpeed_target st dt

theorem updateRotation_config (st : BallState) (dt : ℝ) :
    (updateRotation st dt).rotationConfig = st.rotationConfig :=
  updateRotationSpeed_config st dt

/-- The smoothing step keeps the speed weakly between its old value and
the target, in either direction. -/
theorem updateRotationSpeed_between (st : BallState) (dt : ℝ) (hdt : 0 ≤ dt)
    (hrate : 0 ≤ st.rotationConfig.speedTransitionRate) :
    (st.rotationSpeed ≤ st.targetRotationSpeed →
      st.rotationSpeed ≤ (updateRotationSpeed st dt).rotationSpeed ∧
      (updateRotationSpeed st dt).rotationSpeed ≤ st.targetRotationSpeed) ∧
    (st.targetRotationSpeed ≤ st.rotationSpeed →
      st.targetRotationSpeed ≤ (updateRotationSpeed st dt).rotationSpeed ∧
      (updateRotationSpeed st dt).rotationSpeed ≤ st.rotationSpeed) := by
  unfold updateRotationSpeed
  split
  · have h0 : 0 ≤ min (st.rotationConfig.speedTransitionRate * (dt * 0.001)) 1.0 :=
      le_min (mul_nonneg hrate (mul_nonneg hdt (by norm_num))) (by norm_num)
    have h1 : min (st.rotationConfig.speedTransitionRate * (dt * 0.001)) 1.0 ≤ 1 := by
      have := min_le_right (st.rotationConfig.speedTransitionRate * (dt * 0.001)) 1.0
      linarith
    exact ⟨fun hxy => lerp_left_bound h0 h1 hxy, fun hxy => lerp_right_bound h0 h1 hxy⟩
  · exact ⟨fun hxy => ⟨hxy, le_refl _⟩, fun hxy => ⟨le_refl _, hxy⟩⟩

/-- C7: an `update(deltaTime)` call with `deltaTime > 0` leaves the
target unchanged and moves `currentSpeed` monotonically toward
`targetSpeed` without overshooting: from below it can only rise and
never passes the target; from above it can only fall and never passes
the target.  (The configured `speedTransitionRate` is nonnegative, as
in the constructor's configuration.) -/
theorem update_monotone_no_overshoot (st : BallState) (dt : ℝ) (hdt : 0 < dt)
    (hrate : 0 ≤ st.rotationConfig.speedTransitionRate) :
    (updateRotation st dt).targetRotationSpeed = st.targetRotationSpeed ∧
    (st.rotationSpeed ≤ st.targetRotationSpeed →
      st.rotationSpeed ≤ (updateRotation st dt).rotationSpeed ∧
      (updateRotation st dt).rotationSpeed ≤ st.targetRotationSpeed) ∧
    (st.targetRotationSpeed ≤ st.rotationSpeed →
      st.targetRotationSpeed ≤ (updateRotation st dt).rotationSpeed ∧
      (updateRotation st dt).rotationSpeed ≤ st.rotationSpeed) := by
  have hb := updateRotationSpeed_between st dt hdt.le hrate
  exact ⟨updateRotation_target st dt, by
    rw [updateRotation_rotationSpeed]; exact hb.1, by
    rw [updateRotation_rotationSpeed]; exact hb.2⟩

/-- Witness for C7: the default state retargeted to speed `5`, one
16 ms frame. -/
theorem update_monotone_no_overshoot_witness :
    letI st : BallState := { initialBallState with targetRotationSpeed := 5 }
    ((0 : ℝ) < 16 ∧ 0 ≤ st.rotationConfig.speedTransitionRate) ∧
    ((updateRotation st 16).targetRotationSpeed = st.targetRotationSpeed ∧
     (st.rotationSpeed ≤ st.targetRotationSpeed →
       st.rotationSpeed ≤ (updateRotation st 16).rotationSpeed ∧
       (updateRotation st 16).rotationSpeed ≤ st.targetRotationSpeed) ∧
     (st.targetRotationSpeed ≤ st.rotationSpeed →
       st.targetRotationSpeed ≤ (updateRotation st 16).rotationSpeed ∧
       (updateRotation st 16).rotationSpeed ≤ st.rotationSpeed)) := by
  refine ⟨⟨by norm_num, by norm_num [initialBallState, initialRotationConfig]⟩, ?_⟩
  exact update_monotone_no_overshoot _ 16 (by norm_num)
    (by norm_num [initialBallState, initialRotationConfig])

/-- C8: `setRotationSpeed(s)` stores the clamp of `s` to
`[minSpeed, maxSpeed]` as the target: below-range inputs store
`minSpeed`, above-range inputs store `maxSpeed`, in-range inputs store
`s`; the call is total (never rejects) and leaves `rotationSpeed`
untouched. -/
theorem setRotationSpeed_clamps (st : BallState) (s : ℝ)
    (hmm : st.rotationConfig.minSpeed ≤ st.rotationConfig.maxSpeed) :
    (s < st.rotationConfig.minSpeed →
      (setRotationSpeed st s).targetRotationSpeed = st.rotationConfig.minSpeed) ∧
    (st.rotationConfig.maxSpeed < s →
      (setRotationSpeed st s).targetRotationSpeed = st.rotationConfig.maxSpeed) ∧
    (st.rotationConfig.minSpeed ≤ s → s ≤ st.rotationConfig.maxSpeed →
      (setRotationSpeed st s).targetRotationSpeed = s) ∧
    (setRotationSpeed st s).rotationSpeed = st.rotationSpeed ∧
    (setRotationSpeed st s).targetRotationSpeed = clampSpeed st.rotationConfig s := by
  have hT : (setRotationSpeed st s).targetRotationSpeed =
      max st.rotationConfig.minSpeed (min st.rotationConfig.maxSpeed s) := rfl
  refine ⟨?_, ?_, ?_, rfl, rfl⟩
  · intro h
    rw [hT, min_eq_right (le_trans h.le hmm), max_eq_left h.le]
  · intro h
    rw [hT, min_eq_left h.le, max_eq_right hmm]
  · intro h1 h2
    rw [hT, min_eq_right h2, max_eq_right h1]

/-- Witness for C8 at the default state with the out-of-range input
`s = 10`. -/
theorem setRotationSpeed_clamps_witness :
    initialBallState.rotationConfig.minSpeed ≤ initialBallState.rotationConfig.maxSpeed ∧
    (((10 : ℝ) < initialBallState.rotationConfig.minSpeed →
      (setRotationSpeed initialBallState 10).targetRotationSpeed =
        initialBallState.rotationConfig.minSpeed) ∧
     (initialBallState.rotationConfig.maxSpeed < 10 →
      (setRotationSpeed initialBallState 10).targetRotationSpeed =
        initialBallState.rotationConfig.maxSpeed) ∧
     (initialBallState.rotationConfig.minSpeed ≤ 10 →
      (10 : ℝ) ≤ initialBallState.rotationConfig.maxSpeed →
      (setRotationSpeed initialBallState 10).targetRotationSpeed = 10) ∧
     (setRotationSpeed initialBallState 10).rotationSpeed = initialBallState.rotationSpeed ∧
     (setRotationSpeed initialBallState 10).targetRotationSpeed =
       clampSpeed initialBallState.rotationConfig 10) :=
  ⟨by norm_num [initialBallState, initialRotationConfig],
   setRotationSpeed_clamps initialBallState 10
     (by norm_num [initialBallState, initialRotationConfig])⟩

theorem clampSpeed_bounds (cfg : RotationConfig) (s : ℝ)
    (hmm : cfg.minSpeed ≤ cfg.maxSpeed) :
    cfg.minSpeed ≤ clampSpeed cfg s ∧ clampSpeed cfg s ≤ cfg.maxSpeed :=
  ⟨le_max_left _ _, max_le hmm (min_le_left _ _)⟩

/-- The operations allowed by the amended C6: every controller
operation except `setRotationConfig`, with nonnegative frame times. -/
def benignRotOp : RotOp → Prop
  | .update dt => 0 ≤ dt
  | .setConfig _ => False
  | _ => True

/-- Auxiliary induction invariant for C6: the configuration is still
the constructor's, and both the current and the target speed lie within
its bounds. -/
def rotAux (st : BallState) : Prop :=
  st.rotationConfig = initialRotationConfig ∧
  speedInvariant st ∧
  st.rotationConfig.minSpeed ≤ st.targetRotationSpeed ∧
  st.targetRotationSpeed ≤ st.rotationConfig.maxSpeed

theorem applyRotOp_preserves_rotAux (st : BallState) (op : RotOp)
    (hb : benignRotOp op) (h : rotAux st) : rotAux (applyRotOp st op) := by
  obtain ⟨hcfg, ⟨hs1, hs2⟩, ht1, ht2⟩ := h
  have hmm : st.rotationConfig.minSpeed ≤ st.rotationConfig.maxSpeed := by
    rw [hcfg]; norm_num [initialRotationConfig]
  cases op with
  | setSpeed s =>
    exact ⟨hcfg, ⟨hs1, hs2⟩, (clampSpeed_bounds _ s hmm).1, (clampSpeed_bounds _ s hmm).2⟩
  | setSpeedImmediate s =>
    exact ⟨hcfg, ⟨(clampSpeed_bounds _ s hmm).1, (clampSpeed_bounds _ s hmm).2⟩,
      (clampSpeed_bounds _ s hmm).1, (clampSpeed_bounds _ s hmm).2⟩
  | setDirection d =>
    exact ⟨hcfg, ⟨hs1, hs2⟩, ht1, ht2⟩
  | stop =>
    exact ⟨hcfg, ⟨hs1, hs2⟩, (clampSpeed_bounds _ 0 hmm).1, (clampSpeed_bounds _ 0 hmm).2⟩
  | stopImmediate =>
    exact ⟨hcfg, ⟨(clampSpeed_bounds _ 0 hmm).1, (clampSpeed_bounds _ 0 hmm).2⟩,
      (clampSpeed_bounds _ 0 hmm).1, (clampSpeed_bounds _ 0 hmm).2⟩
  | update dt =>
    have hdt : 0 ≤ dt := hb
    have hrate : 0 ≤ st.rotationConfig.speedTransitionRate := by
      rw [hcfg]; norm_num [initialRotationConfig]
    have hbtw := updateRotationSpeed_between st dt hdt hrate
    have hspeed : st.rotationConfig.minSpeed ≤ (updateRotation st dt).rotationSpeed ∧
        (updateRotation st dt).rotationSpeed ≤ st.rotationConfig.maxSpeed := by
      rw [updateRotation_rotationSpeed]
      rcases le_total st.rotationSpeed st.targetRotationSpeed with hle | hle
      · obtain ⟨hl, hr⟩ := hbtw.1 hle
        exact ⟨le_trans hs1 hl, le_trans hr ht2⟩
      · obtain ⟨hl, hr⟩ := hbtw.2 hle
        exact ⟨le_trans ht1 hl, le_trans hr hs2⟩
    refine ⟨by rw [show (applyRotOp st (.update dt)) = updateRotation st dt from rfl,
        updateRotation_config]; exact hcfg, ?_, ?_, ?_⟩
    · constructor
      · rw [show (applyRotOp st (.update dt)) = updateRotation st dt from rfl,
          updateRotation_config]
        exact hspeed.1
      · rw [show (applyRotOp st (.update dt)) = updateRotation st dt from rfl,
          updateRotation_config]
        exact hspeed.2
    · rw [show (applyRotOp st (.update dt)) = updateRotation st dt from rfl,
        updateRotation_config, updateRotation_target]
      exact ht1
    · rw [show (applyRotOp st (.update dt)) = updateRotation st dt from rfl,
        updateRotation_config, updateRotation_target]
      exact ht2
  | setConfig p =>
    exact absurd hb id

theorem runRotOps_preserves_rotAux (ops : List RotOp) :
    ∀ st : BallState, (∀ op ∈ ops, benignRotOp op) → rotAux st →
      rotAux (runRotOps st ops) := by
  induction ops with
  | nil => intro st _ h; simpa [runRotOps] using h
  | cons op rest ih =>
    intro st hops h
    have h1 : benignRotOp op := hops op (List.mem_cons_self _ _)
    have h2 : ∀ o ∈ rest, benignRotOp o := fun o ho => hops o (List.mem_cons_of_mem _ ho)
    have : runRotOps st (op :: rest) = runRotOps (applyRotOp st op) rest := rfl
    rw [this]
    exact ih (applyRotOp st op) h2 (applyRotOp_preserves_rotAux st op h1 h)

/-- C6 fails as stated: `setRotationConfig({minSpeed: 3})` raises
`minSpeed` above the current speed; the subsequent (first) `update` of
16 ms snaps the speed to the old target `1`, so afterwards
`currentSpeed = 1 < minSpeed = 3` — the invariant does not hold after
the first update. -/
theorem rotation_speed_invariant_counterexample :
    (runRotOps initialBallState
        [RotOp.setConfig { minSpeed := some 3 }, RotOp.update 16]).rotationSpeed <
    (runRotOps initialBallState
        [RotOp.setConfig { minSpeed := some 3 }, RotOp.update 16]).rotationConfig.minSpeed := by
  norm_num [runRotOps, applyRotOp, setRotationConfig, mergeConfig, updateRotation,
    updateRotationSpeed, initialBallState, initialRotationConfig, lerp]

/-- C6 (amended): for every sequence of controller operations drawn
from `setSpeed`, `setSpeedImmediate`, `setDirection`, `stop`,
`stopImmediate` and `update` with nonnegative `deltaTime` — i.e.
excluding `setRotationConfig`, which can move the bounds away from the
current speed — the invariant `minSpeed ≤ currentSpeed ≤ maxSpeed`
holds at every point of the run from the constructor state (in
particular at all times after the first update). -/
theorem rotation_speed_invariant_amended (ops : List RotOp)
    (hops : ∀ op ∈ ops, benignRotOp op) :
    speedInvariant (runRotOps initialBallState ops) := by
  have hinit : rotAux initialBallState := by
    refine ⟨rfl, ⟨?_, ?_⟩, ?_, ?_⟩ <;>
      norm_num [initialBallState, initialRotationConfig, speedInvariant]
  exact (runRotOps_preserves_rotAux ops initialBallState hops hinit).2.1

/-- Witness for the amended C6: a 16 ms update followed by a retarget
to speed 3. -/
theorem rotation_speed_invariant_amended_witness :
    (∀ op ∈ [RotOp.update 16, RotOp.setSpeed 3], benignRotOp op) ∧
    speedInvariant (runRotOps initialBallState [RotOp.update 16, RotOp.setSpeed 3]) := by
  have hb : ∀ op ∈ [RotOp.update 16, RotOp.setSpeed 3], benignRotOp op := by
    intro op hop
    rcases List.mem_cons.1 hop with h | h
    · subst h; show (0 : ℝ) ≤ 16; norm_num
    · rcases List.mem_cons.1 h with h' | h'
      · subst h'; trivial
      · simp at h'
  exact ⟨hb, rotation_speed_invariant_amended _ hb⟩

theorem updateRotation_pos_speed (st : BallState) (dt : ℝ) (hdt : 0 ≤ dt)
    (hrate : 0 ≤ st.rotationConfig.speedTransitionRate)
    (hs : 0 < st.rotationSpeed) (ht : 0 < st.targetRotationSpeed) :
    0 < (updateRotation st dt).rotationSpeed := by
  rw [updateRotation_rotationSpeed]
  have hbtw := updateRotationSpeed_between st dt hdt hrate
  rcases le_total st.rotationSpeed st.targetRotationSpeed with hle | hle
  · exact lt_of_lt_of_le hs (hbtw.1 hle).1
  · exact lt_of_lt_of_le ht (hbtw.2 hle).1

theorem foldl_updateRotation_pos (dts : List ℝ) :
    ∀ st : BallState, (∀ dt ∈ dts, 0 ≤ dt) →
      st.rotationConfig = initialRotationConfig →
      0 < st.rotationSpeed → 0 < st.targetRotationSpeed →
      0 < (dts.foldl updateRotation st).rotationSpeed := by
  induction dts with
  | nil => intro st _ _ hs _; simpa using hs
  | cons d rest ih =>
    intro st hdts hcfg hs ht
    have hd : 0 ≤ d := hdts d (List.mem_cons_self _ _)
    have hrest : ∀ dt ∈ rest, 0 ≤ dt := fun dt hdt => hdts dt (List.mem_cons_of_mem _ hdt)
    have hrate : 0 ≤ st.rotationConfig.speedTransitionRate := by
      rw [hcfg]; norm_num [initialRotationConfig]
    simp only [List.foldl_cons]
    exact ih (updateRotation st d)
      hrest
      (by rw [updateRotation_config]; exact hcfg)
      (updateRotation_pos_speed st d hd hrate hs ht)
      (by rw [updateRotation_target]; exact ht)

/-- C10: from any state with the constructor's rotation configuration
and a positive current speed, `stopRotation()` stores
`targetRotationSpeed = minSpeed = 0.1 > 0` (the clamp of `0`), and no
subsequent sequence of nonnegative-`deltaTime` updates ever brings
`currentSpeed` to zero — it stays strictly positive, so the rotation
never actually stops. -/
theorem stopRotation_never_stops (st : BallState)
    (hcfg : st.rotationConfig = initialRotationConfig)
    (hspeed : 0 < st.rotationSpeed)
    (dts : List ℝ) (hdts : ∀ dt ∈ dts, 0 ≤ dt) :
    (stopRotation st).targetRotationSpeed = st.rotationConfig.minSpeed ∧
    (stopRotation st).targetRotationSpeed = 0.1 ∧
    0 < (dts.foldl updateRotation (stopRotation st)).rotationSpeed := by
  have htgt : (stopRotation st).targetRotationSpeed = 0.1 := by
    show clampSpeed st.rotationConfig 0 = 0.1
    rw [hcfg]
    norm_num [clampSpeed, initialRotationConfig]
  refine ⟨by rw [htgt, hcfg]; norm_num [initialRotationConfig], htgt, ?_⟩
  exact foldl_updateRotation_pos dts (stopRotation st) hdts
    (by show st.rotationConfig = _; exact hcfg)
    (by show 0 < st.rotationSpeed; exact hspeed)
    (by rw [htgt]; norm_num)

/-- Witness for C10: the constructor state, one 16 ms frame after
stopping. -/
theorem stopRotation_never_stops_witness :
    (initialBallState.rotationConfig = initialRotationConfig ∧
     0 < initialBallState.rotationSpeed ∧ ∀ dt ∈ [(16 : ℝ)], 0 ≤ dt) ∧
    ((stopRotation initialBallState).targetRotationSpeed =
      initialBallState.rotationConfig.minSpeed ∧
     (stopRotation initialBallState).targetRotationSpeed = 0.1 ∧
     0 < ([(16 : ℝ)].foldl updateRotation (stopRotation initialBallState)).rotationSpeed) := by
  have hdts : ∀ dt ∈ [(16 : ℝ)], 0 ≤ dt := by
    intro dt hdt
    rw [List.mem_singleton] at hdt
    subst hdt
    norm_num
  exact ⟨⟨rfl, by norm_num [initialBallState], hdts⟩,
    stopRotation_never_stops initialBallState rfl (by norm_num [initialBallState]) _ hdts⟩

/-- C4 fails as stated: starting from the constructor state with an
already-accumulated roll of `1` radian, one 16 ms-scale update applies a
roll that differs from the oscillatory value
`sin(yaw·2)·zAxisFactor·Δyaw` by the accumulated `1` — the code
executes `currentRotation.z += …`, so the applied roll accumulates. -/
theorem roll_nonaccumulating_counterexample :
    letI st0 : BallState := { initialBallState with currentRotation := ⟨0, 0, 1⟩ }
    letI st1 := updateRotation st0 1000
    letI delta := st1.rotationSpeed * st1.rotationDirection * (1000 : ℝ) * 0.001
    st1.currentRotation.z ≠
      Real.sin (st1.currentRotation.y * 2) * st1.rotationConfig.zAxisFactor * delta := by
  intro h
  simp only [updateRotation, updateRotationSpeed, initialBallState,
    initialRotationConfig, lerp] at h
  norm_num at h

/-- C4 (amended): each `updateRotation(deltaTime)` call *adds* the
oscillatory increment `sin(yaw′·2)·zAxisFactor·Δyaw` (with `yaw′` the
already-updated yaw and `Δyaw = currentSpeed·direction·deltaTime·0.001`)
to the stored roll angle; the roll applied to the parent is this
accumulated sum, not the bare increment, so it is not a non-accumulating
quantity. -/
theorem roll_accumulates (st : BallState) (dt : ℝ) :
    letI speed' := (updateRotationSpeed st dt).rotationSpeed
    letI delta := speed' * st.rotationDirection * dt * 0.001
    letI newYaw := st.currentRotation.y + delta
    (updateRotation st dt).currentRotation.z =
      st.currentRotation.z +
        Real.sin (newYaw * 2) * st.rotationConfig.zAxisFactor * delta := by
  show (updateRotation st dt).currentRotation.z = _
  unfold updateRotation
  simp only [updateRotationSpeed_direction, updateRotationSpeed_currentRotation,
    updateRotationSpeed_config]

/-! ## Beam color animation (`LightBeamSystem.js` lines 42–51, 224–268, 326–331) -/

/-- `THREE.Color` with real channels (hex components scaled by `1/255`). -/
@[ext] structure Color where
  r : ℝ
  g : ℝ
  b : ℝ

/-- `THREE.Color.lerp(color, alpha)`: each channel moves toward the
target by `(target − current) · alpha`. -/
def colorLerp (c target : Color) (alpha : ℝ) : Color :=
  ⟨c.r + (target.r - c.r) * alpha,
   c.g + (target.g - c.g) * alpha,
   c.b + (target.b - c.b) * alpha⟩

/-- `new THREE.Color(0xffffff)`. -/
def whiteColor : Color := ⟨1, 1, 1⟩

/-- `this.rainbowColors` (`LightBeamSystem.js` lines 43–51): the seven
reference colors red, orange, yellow, green, cyan, blue, violet. -/
def rainbowColors : List Color :=
  [⟨1, 0, 0⟩, ⟨1, 128 / 255, 0⟩, ⟨1, 1, 0⟩, ⟨0, 1, 0⟩,
   ⟨0, 1, 1⟩, ⟨0, 128 / 255, 1⟩, ⟨128 / 255, 0, 1⟩]

/-- JavaScript's remainder operator `%` on numbers (truncated
division): `a − b · trunc(a / b)`. -/
def jsMod (a b : ℝ) : ℝ :=
  a - b * (if 0 ≤ a / b then (⌊a / b⌋ : ℝ) else (⌈a / b⌉ : ℝ))

/-- `LightBeamSystem.getRainbowColor` (`LightBeamSystem.js` lines
255–268): wrap `t` into `[0,1)`, scale into palette-segment space,
bound it by the floor/ceil palette entries and interpolate linearly. -/
def getRainbowColor (t : ℝ) : Color :=
  let normalizedT := jsMod (jsMod t 1.0 + 1.0) 1.0
  let colorIndex := normalizedT * ((rainbowColors.length : ℝ) - 1)
  let lowerIndex : ℤ := ⌊colorIndex⌋
  let upperIndex : ℤ := ⌈colorIndex⌉
  let factor := colorIndex - (lowerIndex : ℝ)
  let lowerColor := rainbowColors.getD lowerIndex.toNat whiteColor
  let upperColor := rainbowColors.getD (upperIndex % (rainbowColors.length : ℤ)).toNat whiteColor
  colorLerp lowerColor upperColor factor

/-- One beam's record in `this.beams` (`LightBeamSystem.js` lines
195–204), with the shader-uniform color it owns. -/
structure Beam where
  id : ℕ
  baseColor : Color
  currentColor : Color
  colorOffset : ℝ
  randomColorTarget : Color
  materialColor : Color

/-- The loop body of `LightBeamSystem.updateColors`
(`LightBeamSystem.js` lines 224–250) for one beam.  `Math.random()`
draws are modelled as explicit inputs: `rand` is the number compared
against `0.01`, and `newTarget` is the color that
`setHSL(Math.random(), 1.0, 0.5)` would produce on a re-roll.  The
target is chosen by mode (any unknown mode falls into the white
default), the random target is re-rolled after being read, and
`currentColor` is lerped toward the target by `0.05` in every mode,
then copied to the material uniform. -/
def updateColorsBeam (mode : String) (colorTime : ℝ) (rand : ℝ) (newTarget : Color)
    (beam : Beam) : Beam :=
  let targetColor : Color :=
    if mode = "rainbow" then getRainbowColor (beam.colorOffset + colorTime)
    else if mode = "random" then beam.randomColorTarget
    else whiteColor
  let beam1 : Beam :=
    if mode = "random" ∧ rand < 0.01 then { beam with randomColorTarget := newTarget }
    else beam
  let newColor := colorLerp beam1.currentColor targetColor 0.05
  { beam1 with currentColor := newColor, materialColor := newColor }

/-- `LightBeamSystem.updateColors` over the whole beam list; `oracle i`
supplies the two modelled random draws for beam `i`. -/
def updateColors (mode : String) (colorTime : ℝ) (oracle : ℕ → ℝ × Color)
    (beams : List Beam) : List Beam :=
  beams.mapIdx fun i beam => updateColorsBeam mode colorTime (oracle i).1 (oracle i).2 beam

/-- C5 fails as stated: a beam whose current color is red is not set to
white by a white-mode update — the update blends it `5%` of the way to
white (green channel `0.05`, not `1`). -/
theorem white_mode_counterexample :
    letI beam0 : Beam :=
      { id := 0, baseColor := whiteColor, currentColor := ⟨1, 0, 0⟩,
        colorOffset := 0, randomColorTarget := whiteColor, materialColor := whiteColor }
    (updateColorsBeam "white" 0 1 whiteColor beam0).currentColor ≠ whiteColor := by
  intro h
  have hg := congrArg Color.g h
  simp [updateColorsBeam, colorLerp, whiteColor] at hg
  norm_num at hg

/-- C5 (amended): in white color mode every update uses the constant
white as the target, but `currentColor` is *interpolated* toward white
by the fixed factor `0.05` per update, exactly like the other modes
(the interpolation step is not bypassed); the blended result — not
necessarily white itself — is what is pushed to the shader uniform. -/
theorem white_mode_lerps (colorTime rand : ℝ) (newTarget : Color) (beam : Beam) :
    (updateColorsBeam "white" colorTime rand newTarget beam).currentColor =
      colorLerp beam.currentColor whiteColor 0.05 ∧
    (updateColorsBeam "white" colorTime rand newTarget beam).materialColor =
      colorLerp beam.currentColor whiteColor 0.05 ∧
    (updateColorsBeam "white" colorTime rand newTarget beam).randomColorTarget =
      beam.randomColorTarget := by
  unfold updateColorsBeam
  norm_num
  simp

/-- The `LightBeamSystem` configuration fields its setters touch. -/
structure BeamConfig where
  colorMode : String
  beamOpacity : ℝ
  beamIntensity : ℝ
  animationSpeed : ℝ

/-- The constructor's defaults for those fields
(`LightBeamSystem.js` lines 12–29). -/
def defaultBeamConfig : BeamConfig :=
  { colorMode := "rainbow", beamOpacity := 0.8, beamIntensity := 2.0, animationSpeed := 0.02 }

/-- `LightBeamSystem.setColorMode` (`LightBeamSystem.js` lines
326–331): store the mode only when
`['rainbow', 'random', 'white'].includes(mode)`; otherwise do nothing. -/
def setColorMode (cfg : BeamConfig) (mode : String) : BeamConfig :=
  if mode ∈ ["rainbow", "random", "white"] then { cfg with colorMode := mode }
  else cfg

/-- C9: `setColorMode(m)` with `m` outside `{rainbow, random, white}`
leaves the configuration (the mode and every other field) unchanged and
raises no error; with `m` in the set it stores `m` and changes nothing
else. -/
theorem setColorMode_spec (cfg : BeamConfig) (mode : String) :
    (mode ∉ ["rainbow", "random", "white"] → setColorMode cfg mode = cfg) ∧
    (mode ∈ ["rainbow", "random", "white"] →
      (setColorMode cfg mode).colorMode = mode ∧
      (setColorMode cfg mode).beamOpacity = cfg.beamOpacity ∧
      (setColorMode cfg mode).beamIntensity = cfg.beamIntensity ∧
      (setColorMode cfg mode).animationSpeed = cfg.animationSpeed) := by
  unfold setColorMode
  constructor
  · intro h
    rw [if_neg h]
  · intro h
    rw [if_pos h]
    exact ⟨rfl, rfl, rfl, rfl⟩

/-! ## Beam transform synchronization (`LightBeamSystem.js` lines 292–321)

The three.js quaternion operations the synchronizer calls are embedded
from the three.js sources: `Vector3.applyQuaternion` (the optimized
`t = 2·q×v; v + w·t + q×t` form), `Quaternion.setFromUnitVectors` (the
shortest-arc construction of §4.4), and `Quaternion.normalize`.  The
spec-side meaning of "the parent orientation applied to a vector" is
the quaternion sandwich product `q·(v,0)·q̄`, defined independently as
`Quat.rotate`; for unit quaternions the two coincide. -/

/-- `THREE.Quaternion` with components `(x, y, z, w)`. -/
@[ext] structure Quat where
  x : ℝ
  y : ℝ
  z : ℝ
  w : ℝ

namespace Quat

/-- `THREE.Quaternion.multiplyQuaternions` — the Hamilton product. -/
def mul (a b : Quat) : Quat :=
  ⟨a.x * b.w + a.w * b.x + a.y * b.z - a.z * b.y,
   a.y * b.w + a.w * b.y + a.z * b.x - a.x * b.z,
   a.z * b.w + a.w * b.z + a.x * b.y - a.y * b.x,
   a.w * b.w - a.x * b.x - a.y * b.y - a.z * b.z⟩

/-- `THREE.Quaternion.conjugate`. -/
def conj (q : Quat) : Quat := ⟨-q.x, -q.y, -q.z, q.w⟩

/-- Squared length `x² + y² + z² + w²`. -/
def normSq (q : Quat) : ℝ := q.x ^ 2 + q.y ^ 2 + q.z ^ 2 + q.w ^ 2

/-- The mathematical rotation action of a unit quaternion: the vector
part of the sandwich product `q · (v, 0) · q̄`.  This is the spec's
"parentOrientation · vector". -/
def rotate (q : Quat) (v : Vec3) : Vec3 :=
  let p := mul (mul q ⟨v.x, v.y, v.z, 0⟩) (conj q)
  ⟨p.x, p.y, p.z⟩

/-- `THREE.Quaternion.normalize`: scale to unit length, or reset to the
identity quaternion when the length is zero. -/
def normalize (q : Quat) : Quat :=
  let l := Real.sqrt (normSq q)
  if l = 0 then ⟨0, 0, 0, 1⟩
  else ⟨q.x * (1 / l), q.y * (1 / l), q.z * (1 / l), q.w * (1 / l)⟩

end Quat

/-- `Number.EPSILON = 2⁻⁵²`. -/
def numberEpsilon : ℝ := (2 : ℝ) ^ (-52 : ℤ)

/-- `THREE.Vector3.applyQuaternion` as implemented in three.js:
`t = 2·(q.xyz × v)`, result `v + q.w·t + q.xyz × t`. -/
def Vec3.applyQuaternion (v : Vec3) (q : Quat) : Vec3 :=
  let tx := 2 * (q.y * v.z - q.z * v.y)
  let ty := 2 * (q.z * v.x - q.x * v.z)
  let tz := 2 * (q.x * v.y - q.y * v.x)
  ⟨v.x + q.w * tx + q.y * tz - q.z * ty,
   v.y + q.w * ty + q.z * tx - q.x * tz,
   v.z + q.w * tz + q.x * ty - q.y * tx⟩

/-- `THREE.Quaternion.setFromUnitVectors(vFrom, vTo)`: the shortest-arc
quaternion construction — cross product and `1 + dot` in the generic
case, an arbitrary perpendicular axis in the antiparallel case — then
normalized. -/
def setFromUnitVectors (vFrom vTo : Vec3) : Quat :=
  let r := vFrom.x * vTo.x + vFrom.y * vTo.y + vFrom.z * vTo.z + 1
  let q : Quat :=
    if r < numberEpsilon then
      if |vFrom.x| > |vFrom.z| then ⟨-vFrom.y, vFrom.x, 0, 0⟩
      else ⟨0, -vFrom.z, vFrom.y, 0⟩
    else
      ⟨vFrom.y * vTo.z - vFrom.z * vTo.y,
       vFrom.z * vTo.x - vFrom.x * vTo.z,
       vFrom.x * vTo.y - vFrom.y * vTo.x, r⟩
  Quat.normalize q

/-- For a unit quaternion, the three.js `applyQuaternion` shortcut
computes exactly the sandwich-product rotation. -/
theorem applyQuaternion_eq_rotate (q : Quat) (v : Vec3) (hq : Quat.normSq q = 1) :
    Vec3.applyQuaternion v q = Quat.rotate q v := by
  unfold Quat.normSq at hq
  ext
  · simp only [Vec3.applyQuaternion, Quat.rotate, Quat.mul, Quat.conj]
    linear_combination (-v.x) * hq
  · simp only [Vec3.applyQuaternion, Quat.rotate, Quat.mul, Quat.conj]
    linear_combination (-v.y) * hq
  · simp only [Vec3.applyQuaternion, Quat.rotate, Quat.mul, Quat.conj]
    linear_combination (-v.z) * hq

/-- The canonical "up" axis `new THREE.Vector3(0, 1, 0)` used by the
beam orientation code. -/
def upAxis : Vec3 := ⟨0, 1, 0⟩

/-- A beam's scene transform: its mesh position and the quaternion set
by `setRotationFromQuaternion`. -/
structure BeamTransform where
  position : Vec3
  orientation : Quat

/-- The loop body of `LightBeamSystem.syncWithDiscoBall`
(`LightBeamSystem.js` lines 299–320) for one beam/hole pair: rotate the
aperture's position by the parent quaternion and translate by the
parent position; rotate the aperture's direction; re-derive the beam's
orientation from the rotated direction via `setFromUnitVectors`. -/
def syncBeam (parentQuat : Quat) (parentPos : Vec3) (hole : Hole) : BeamTransform :=
  let rotatedPosition := Vec3.add (Vec3.applyQuaternion hole.position parentQuat) parentPos
  let rotatedDirection := Vec3.applyQuaternion hole.direction parentQuat
  { position := rotatedPosition
    orientation := setFromUnitVectors upAxis rotatedDirection }

/-- `LightBeamSystem.syncWithDiscoBall` (`LightBeamSystem.js` lines
292–321): update every beam from its aperture and the parent mesh's
quaternion/position; a beam whose index has no aperture is left
untouched (the `index >= holes.length` guard). -/
def syncWithDiscoBall (parentQuat : Quat) (parentPos : Vec3) (holes : List Hole)
    (beams : List BeamTransform) : List BeamTransform :=
  beams.mapIdx fun i beam =>
    if h : i < holes.length then syncBeam parentQuat parentPos (holes.get ⟨i, h⟩)
    else beam

theorem syncWithDiscoBall_length (parentQuat : Quat) (parentPos : Vec3)
    (holes : List Hole) (beams : List BeamTransform) :
    (syncWithDiscoBall parentQuat parentPos holes beams).length = beams.length := by
  unfold syncWithDiscoBall
  exact List.length_mapIdx

/-- C2: after the synchronizer runs with parent orientation `Q` (a unit
quaternion) and parent position `P`, beam `i`'s world position is
`Q · aperture_i.position + P` and its world orientation is obtained by
the shortest-arc construction (`setFromUnitVectors`, §4.4) mapping the
canonical up axis `(0,1,0)` onto the world direction
`Q · aperture_i.direction` — where `Q · v` is the quaternion rotation
(sandwich product) of `v`. -/
theorem syncWithDiscoBall_spec (Q : Quat) (P : Vec3) (holes : List Hole)
    (beams : List BeamTransform) (hQ : Quat.normSq Q = 1)
    (i : ℕ) (hib : i < beams.length) (hih : i < holes.length) :
    ((syncWithDiscoBall Q P holes beams).get
        ⟨i, by simpa [syncWithDiscoBall_length] using hib⟩).position =
      Vec3.add (Quat.rotate Q ((holes.get ⟨i, hih⟩).position)) P ∧
    ((syncWithDiscoBall Q P holes beams).get
        ⟨i, by simpa [syncWithDiscoBall_length] using hib⟩).orientation =
      setFromUnitVectors upAxis (Quat.rotate Q ((holes.get ⟨i, hih⟩).direction)) := by
  have hget : (syncWithDiscoBall Q P holes beams).get
      ⟨i, by simpa [syncWithDiscoBall_length] using hib⟩ =
      syncBeam Q P (holes.get ⟨i, hih⟩) := by
    unfold syncWithDiscoBall
    rw [List.get_mapIdx beams _ i hib, dif_pos hih]
  rw [hget]
  unfold syncBeam
  rw [applyQuaternion_eq_rotate Q _ hQ, applyQuaternion_eq_rotate Q _ hQ]
  exact ⟨rfl, rfl⟩

/-- Witness for C2: the identity parent quaternion, origin parent
position, a single aperture at `(0, 2, 0)` pointing along `(0, 1, 0)`. -/
theorem syncWithDiscoBall_spec_witness :
    letI Q : Quat := ⟨0, 0, 0, 1⟩
    letI P : Vec3 := ⟨0, 0, 0⟩
    letI hole0 : Hole :=
      { id := 0, theta := 0, phi := 0, direction := ⟨0, 1, 0⟩,
        position := ⟨0, 2, 0⟩, normal := ⟨0, 1, 0⟩ }
    letI beam0 : BeamTransform := ⟨⟨0, 0, 0⟩, ⟨0, 0, 0, 1⟩⟩
    (Quat.normSq Q = 1 ∧ 0 < [beam0].length ∧ 0 < [hole0].length) ∧
    (((syncWithDiscoBall Q P [hole0] [beam0]).get
        ⟨0, by simp [syncWithDiscoBall_length]⟩).position =
      Vec3.add (Quat.rotate Q (([hole0].get ⟨0, Nat.zero_lt_one⟩).position)) P ∧
     ((syncWithDiscoBall Q P [hole0] [beam0]).get
        ⟨0, by simp [syncWithDiscoBall_length]⟩).orientation =
      setFromUnitVectors upAxis
        (Quat.rotate Q (([hole0].get ⟨0, Nat.zero_lt_one⟩).direction))) := by
  refine ⟨⟨by norm_num [Quat.normSq], by norm_num, by norm_num⟩, ?_⟩
  exact syncWithDiscoBall_spec ⟨0, 0, 0, 1⟩ ⟨0, 0, 0⟩ _ _
    (by norm_num [Quat.normSq]) 0 (by norm_num) (by norm_num)

end

end Disco
